import Mathlib

/-!
# Verification of the deploy-shield program lifecycle tool

Shallow embedding of the Rust sources under `src/`:

* `src/commands/deploy.rs`   — deploy flow (`execute`, `deploy_program_bpf_upgradeable`,
  `write_program_data_to_buffer`)
* `src/commands/upgrade.rs`  — upgrade flow (`execute`, `upgrade_program_bpf_upgradeable`,
  `verify_upgrade_authority`, `write_program_data_to_buffer`)
* `src/commands/rotate.rs`   — rotate flow (`execute`, `transfer_upgrade_authority`)
* `src/commands/finalize.rs` — finalize flow (`execute`, `finalize_program`,
  `verify_current_authority`, `verify_immutable`)
* `src/config.rs`            — local `ProjectState` / `DeployedProgram` records

Remote-ledger interaction (RPC queries, transaction submission) is modelled by an
environment record supplying the result of each call, and each command is a function
from its environment and the loaded local state to a `Except`-result together with the
ordered list of observable events (transactions submitted, balance checks performed,
local state saved).  Public keys are abstract (`Nat`).
-/

namespace DeployShield

/-- Abstract public key.  The concrete 32-byte Solana key plays no role in the
control flow being verified, so keys are modelled as natural numbers. -/
abbrev Pubkey := Nat

/-- `UpgradeableLoaderState` from `solana_loader_v3_interface::state`, as matched on by
`verify_upgrade_authority` (upgrade.rs), `verify_current_authority` and
`verify_immutable` (finalize.rs). -/
inductive UpgradeableLoaderState where
  | uninitialized : UpgradeableLoaderState
  | buffer (authority_address : Option Pubkey) : UpgradeableLoaderState
  | program (programdata_address : Pubkey) : UpgradeableLoaderState
  | programData (slot : Nat) (upgrade_authority_address : Option Pubkey) : UpgradeableLoaderState
deriving DecidableEq

/-- Result of `rpc_client.get_account` followed by `bincode::deserialize`:
outer `none` = account fetch failed, inner `none` = deserialization failed. -/
abbrev FetchedAccount := Option (Option UpgradeableLoaderState)

/- ---------------------------------------------------------------------------
Chunked uploader (write_program_data_to_buffer, deploy.rs:278-337 and
upgrade.rs:267-309): `program_data.chunks(chunk_size)` with
`chunk_size = 900`, each chunk submitted at `offset = chunk_index * chunk_size`.
--------------------------------------------------------------------------- -/
/-- `const chunk_size = 900` (deploy.rs:284, upgrade.rs:273). -/
def chunk_size : Nat := 900

/-- Rust's `slice::chunks(s)`: splits `l` into consecutive pieces of length `s`,
the last piece possibly shorter; the empty slice yields no pieces.
(`s = 0` panics in Rust; here it yields `[]`, and is never called with 0.) -/
def rustChunks (s : Nat) : List α → List (List α)
  | [] => []
  | a :: rest =>
    if s = 0 then []
    else (a :: rest).take s :: rustChunks s ((a :: rest).drop s)
termination_by l => l.length
decreasing_by
  simp only [List.length_drop, List.length_cons]
  omega

/-- One chunk-write transaction: `bpf_loader_upgradeable::write(buffer, authority,
offset, chunk)` (deploy.rs:296-301, upgrade.rs:282-287). -/
structure WritePiece where
  offset : Nat
  bytes : List Nat
deriving DecidableEq

/-- `2^32`: the write instruction takes the offset as `u32` — both call sites
cast with `offset as u32` (deploy.rs:299, upgrade.rs:285), which truncates. -/
def U32_MOD : Nat := 4294967296

/-- The sequence of write pieces produced by `write_program_data_to_buffer`:
`program_data.chunks(900).enumerate()` with `offset = chunk_index * chunk_size`
(deploy.rs:289-290, upgrade.rs:278-279), the submitted offset being the
truncating cast `offset as u32` (deploy.rs:299, upgrade.rs:285). -/
def write_pieces (program_data : List Nat) : List WritePiece :=
  (rustChunks chunk_size program_data).enum.map fun p => ⟨p.1 * chunk_size % U32_MOD, p.2⟩

/- ---------------------------------------------------------------------------
Authority Verifier (upgrade.rs:225-262, finalize.rs:162-201, finalize.rs:204-234).
--------------------------------------------------------------------------- -/
/-- Failure cases of the verification routines, one constructor per distinct
`bail!`/`context` message in the source. -/
inductive VerifyErr where
  | accountNotFound : VerifyErr
  | deserializeFailed : VerifyErr
  | authorityMismatch (expected found : Pubkey) : VerifyErr
  | notUpgradeable : VerifyErr
  | alreadyImmutable : VerifyErr
  | finalizationUnconfirmed (found : Option Pubkey) : VerifyErr
  | invalidState : VerifyErr
deriving DecidableEq

/-- `verify_upgrade_authority` (upgrade.rs:225-262): fetch + decode the
ProgramData account, succeed iff it is `ProgramData` with
`upgrade_authority_address = Some(expected)`. -/
def verify_upgrade_authority (account : FetchedAccount) (expected_authority : Pubkey) :
    Except VerifyErr Unit :=
  match account with
  | none => Except.error VerifyErr.accountNotFound
  | some none => Except.error VerifyErr.deserializeFailed
  | some (some (UpgradeableLoaderState.programData _slot (some authority))) =>
      if authority = expected_authority then Except.ok ()
      else Except.error (VerifyErr.authorityMismatch expected_authority authority)
  | some (some (UpgradeableLoaderState.programData _slot none)) =>
      Except.error VerifyErr.notUpgradeable
  | some (some _) => Except.error VerifyErr.invalidState

/-- `verify_current_authority` (finalize.rs:162-201): same shape as
`verify_upgrade_authority`, but an absent authority bails with
"Program is already immutable". -/
def verify_current_authority (account : FetchedAccount) (expected_authority : Pubkey) :
    Except VerifyErr Unit :=
  match account with
  | none => Except.error VerifyErr.accountNotFound
  | some none => Except.error VerifyErr.deserializeFailed
  | some (some (UpgradeableLoaderState.programData _slot (some authority))) =>
      if authority = expected_authority then Except.ok ()
      else Except.error (VerifyErr.authorityMismatch expected_authority authority)
  | some (some (UpgradeableLoaderState.programData _slot none)) =>
      Except.error VerifyErr.alreadyImmutable
  | some (some _) => Except.error VerifyErr.invalidState

/-- `verify_immutable` (finalize.rs:204-234): succeed iff the re-fetched account
decodes to `ProgramData` with `upgrade_authority_address = None`. -/
def verify_immutable (account : FetchedAccount) : Except VerifyErr Unit :=
  match account with
  | none => Except.error VerifyErr.accountNotFound
  | some none => Except.error VerifyErr.deserializeFailed
  | some (some (UpgradeableLoaderState.programData _slot upgrade_authority_address)) =>
      if upgrade_authority_address.isNone then Except.ok ()
      else Except.error (VerifyErr.finalizationUnconfirmed upgrade_authority_address)
  | some (some _) => Except.error VerifyErr.invalidState

/- ---------------------------------------------------------------------------
Local state (config.rs:16-28) and command events/errors.
--------------------------------------------------------------------------- -/
/-- `DeployedProgram` (config.rs:23-28). -/
structure DeployedProgram where
  program_id : String
  deployed_at : Int
  last_upgraded : Option Int
deriving DecidableEq

/-- `ProjectState` (config.rs:16-21). -/
structure ProjectState where
  network : String
  deployed_programs : List DeployedProgram
  last_balance : Nat
deriving DecidableEq

/-- Errors a command can return, one constructor per distinct `bail!`/`context`
site relevant to the verified flows. -/
inductive CmdErr where
  | noDeployer : CmdErr
  | noPrograms : CmdErr
  | missingArtifact : CmdErr
  | insufficientBalance : CmdErr
  | invalidProgramId : CmdErr
  | confirmationMismatch : CmdErr
  | rpcFailed (call : String) : CmdErr
  | txFailed (what : String) : CmdErr
  | chunkWriteFailed (index total : Nat) : CmdErr
  | verify (e : VerifyErr) : CmdErr
deriving DecidableEq

/-- Observable events of a command run, in order: every transaction submitted to
the ledger, every balance check, every authority verification, and every write of
local persisted state. -/
inductive Event where
  | balanceCheck (balance : Nat) : Event
  | verifyAuthority (expected : Pubkey) : Event
  | txCreateBuffer : Event
  | txWrite (offset : Nat) (bytes : List Nat) : Event
  | txDeploy (program_id : Pubkey) : Event
  | txUpgrade (program_id : Pubkey) : Event
  | txSetAuthority (programdata : Pubkey) (signer : Pubkey) (new_authority : Option Pubkey) : Event
  | saveState (st : ProjectState) : Event
  | saveDeployer (key : Pubkey) : Event
deriving DecidableEq

/-- Whether an event is a transaction submitted to the remote ledger. -/
def Event.isTx : Event → Bool
  | Event.txCreateBuffer => true
  | Event.txWrite _ _ => true
  | Event.txDeploy _ => true
  | Event.txUpgrade _ => true
  | Event.txSetAuthority _ _ _ => true
  | _ => false

/-- `Pubkey::find_program_address(&[program_id], &LOADER_ID)` — a deterministic
pure derivation of the ProgramData address from the program id (deploy.rs:220-223,
upgrade.rs:139-142, rotate.rs:101-104, finalize.rs:124-127); modelled as the
identity on abstract keys (any injection would do, none of the verified
properties depend on its value). -/
def find_program_address (program_id : Pubkey) : Pubkey := program_id

/-- `MIN_DEPLOY_BALANCE` (deploy.rs:22). -/
def MIN_DEPLOY_BALANCE : Nat := 5000000000

/-- `MIN_UPGRADE_BALANCE` (upgrade.rs:20). -/
def MIN_UPGRADE_BALANCE : Nat := 1000000000

/- ---------------------------------------------------------------------------
Chunk-write loop (deploy.rs:289-332, upgrade.rs:278-304): submit one write
transaction per piece, in order, stopping at the first failed submission with
"Failed to write chunk {i+1} of {total}".
--------------------------------------------------------------------------- -/
/-- Loop body of `write_program_data_to_buffer`: `write_ok i` is whether the
`send_and_confirm_transaction` for chunk index `i` succeeds. -/
def run_writes (write_ok : Nat → Bool) (total : Nat) :
    List WritePiece → Nat → Except CmdErr Unit × List Event
  | [], _ => (Except.ok (), [])
  | p :: rest, i =>
    if write_ok i then
      let r := run_writes write_ok total rest (i + 1)
      (r.1, Event.txWrite p.offset p.bytes :: r.2)
    else
      (Except.error (CmdErr.chunkWriteFailed (i + 1) total), [Event.txWrite p.offset p.bytes])

/-- `write_program_data_to_buffer` (deploy.rs:278-337, upgrade.rs:267-309):
chunk the payload and submit the pieces in increasing offset order. -/
def write_program_data_to_buffer (write_ok : Nat → Bool) (program_data : List Nat) :
    Except CmdErr Unit × List Event :=
  run_writes write_ok (write_pieces program_data).length (write_pieces program_data) 0

/- ---------------------------------------------------------------------------
Deploy (deploy.rs:25-129 `execute`, deploy.rs:138-272
`deploy_program_bpf_upgradeable`).
--------------------------------------------------------------------------- -/
/-- Environment of one deploy run: the answer of every external call the deploy
flow makes, in source order. -/
structure DeployEnv where
  /-- `config.deployer_exists()` (deploy.rs:30). -/
  deployer_exists : Bool
  /-- Deployer public key (`deployer.pubkey()`). -/
  deployer : Pubkey
  /-- Program artifact bytes; `none` when no file is found / readable
  (deploy.rs:40-52, 89-90). -/
  program_file : Option (List Nat)
  /-- `prompt_confirmation("Proceed?")` (deploy.rs:62). -/
  confirmed : Bool
  /-- `rpc_client.get_balance(...)` (deploy.rs:74); `none` = RPC failure. -/
  balance : Option Nat
  /-- Fresh `Keypair::new()` program id (deploy.rs:95-96). -/
  program_id : Pubkey
  /-- `get_minimum_balance_for_rent_exemption(buffer_size)` (deploy.rs:154-156). -/
  buffer_rent : Option Nat
  /-- Outcome of the create-buffer transaction (deploy.rs:192-194). -/
  create_buffer_ok : Bool
  /-- Outcome of the chunk-write transaction for each chunk index
  (deploy.rs:325-327). -/
  write_ok : Nat → Bool
  /-- `get_minimum_balance_for_rent_exemption(programdata_size)` (deploy.rs:215-217). -/
  programdata_rent : Option Nat
  /-- Outcome of the deploy transaction (deploy.rs:264-266). -/
  deploy_tx_ok : Bool
  /-- `chrono::Utc::now().timestamp()` (deploy.rs:118). -/
  now : Int

/-- `deploy_program_bpf_upgradeable` (deploy.rs:138-272): create buffer, write
chunks, submit the `deploy_with_max_program_len` transaction. -/
def deploy_program_bpf_upgradeable (env : DeployEnv) (program_data : List Nat) :
    Except CmdErr Unit × List Event :=
  match env.buffer_rent with
  | none => (Except.error (CmdErr.rpcFailed "get_minimum_balance_for_rent_exemption"), [])
  | some _ =>
    if env.create_buffer_ok then
      match write_program_data_to_buffer env.write_ok program_data with
      | (Except.ok _, evs) =>
        match env.programdata_rent with
        | none => (Except.error (CmdErr.rpcFailed "get_minimum_balance_for_rent_exemption"),
                   Event.txCreateBuffer :: evs)
        | some _ =>
          if env.deploy_tx_ok then
            (Except.ok (),
             Event.txCreateBuffer :: evs ++ [Event.txDeploy env.program_id])
          else
            (Except.error (CmdErr.txFailed "deploy"),
             Event.txCreateBuffer :: evs ++ [Event.txDeploy env.program_id])
      | (Except.error e, evs) => (Except.error e, Event.txCreateBuffer :: evs)
    else
      (Except.error (CmdErr.txFailed "create buffer"), [Event.txCreateBuffer])

/-- `deploy::execute` (deploy.rs:25-129): preconditions, balance check, deploy
sequence, then push one new `DeployedProgram` record and save state. -/
def deploy_execute (env : DeployEnv) (st : ProjectState) :
    Except CmdErr Unit × List Event :=
  if !env.deployer_exists then (Except.error CmdErr.noDeployer, [])
  else
    match env.program_file with
    | none => (Except.error CmdErr.missingArtifact, [])
    | some program_data =>
      if !env.confirmed then (Except.ok (), [])
      else
        match env.balance with
        | none => (Except.error (CmdErr.rpcFailed "get_balance"), [])
        | some balance =>
          if balance < MIN_DEPLOY_BALANCE then
            (Except.error CmdErr.insufficientBalance, [Event.balanceCheck balance])
          else
            match deploy_program_bpf_upgradeable env program_data with
            | (Except.error e, evs) => (Except.error e, Event.balanceCheck balance :: evs)
            | (Except.ok _, evs) =>
              let newState : ProjectState :=
                { st with
                  deployed_programs := st.deployed_programs ++
                    [{ program_id := toString env.program_id,
                       deployed_at := env.now,
                       last_upgraded := none }],
                  last_balance := balance }
              (Except.ok (),
               Event.balanceCheck balance :: evs ++ [Event.saveState newState])

/- ---------------------------------------------------------------------------
Upgrade (upgrade.rs:22-121 `execute`, upgrade.rs:130-222
`upgrade_program_bpf_upgradeable`).
--------------------------------------------------------------------------- -/
/-- Environment of one upgrade run. -/
structure UpgradeEnv where
  /-- `config.deployer_exists()` (upgrade.rs:27). -/
  deployer_exists : Bool
  /-- Deployer public key. -/
  deployer : Pubkey
  /-- New program artifact bytes; `none` when not found / readable
  (upgrade.rs:44-56, 89-90). -/
  program_file : Option (List Nat)
  /-- `prompt_confirmation("Proceed?")` (upgrade.rs:63). -/
  confirmed : Bool
  /-- `rpc_client.get_balance(...)` (upgrade.rs:74); `none` = RPC failure. -/
  balance : Option Nat
  /-- `Pubkey::from_str` on a stored program-id string (upgrade.rs:98-99). -/
  parse_program_id : String → Option Pubkey
  /-- Fetch + decode of the ProgramData account (upgrade.rs:230-236). -/
  programdata_account : FetchedAccount
  /-- `get_minimum_balance_for_rent_exemption(buffer_size)` (upgrade.rs:162-164). -/
  buffer_rent : Option Nat
  /-- Outcome of the create-buffer transaction (upgrade.rs:182-184). -/
  create_buffer_ok : Bool
  /-- Outcome of the chunk-write transaction for each chunk index
  (upgrade.rs:296-298). -/
  write_ok : Nat → Bool
  /-- Outcome of the upgrade transaction (upgrade.rs:215-217). -/
  upgrade_tx_ok : Bool
  /-- `chrono::Utc::now().timestamp()` (upgrade.rs:116). -/
  now : Int

/-- `upgrade_program_bpf_upgradeable` (upgrade.rs:130-222): verify the upgrade
authority first, then create buffer, write chunks, and submit the upgrade
transaction. -/
def upgrade_program_bpf_upgradeable (env : UpgradeEnv) (program_id : Pubkey)
    (new_program_data : List Nat) : Except CmdErr Unit × List Event :=
  match verify_upgrade_authority env.programdata_account env.deployer with
  | Except.error e => (Except.error (CmdErr.verify e), [Event.verifyAuthority env.deployer])
  | Except.ok _ =>
    match env.buffer_rent with
    | none => (Except.error (CmdErr.rpcFailed "get_minimum_balance_for_rent_exemption"),
               [Event.verifyAuthority env.deployer])
    | some _ =>
      if env.create_buffer_ok then
        match write_program_data_to_buffer env.write_ok new_program_data with
        | (Except.ok _, evs) =>
          if env.upgrade_tx_ok then
            (Except.ok (),
             Event.verifyAuthority env.deployer :: Event.txCreateBuffer ::
               evs ++ [Event.txUpgrade program_id])
          else
            (Except.error (CmdErr.txFailed "upgrade"),
             Event.verifyAuthority env.deployer :: Event.txCreateBuffer ::
               evs ++ [Event.txUpgrade program_id])
        | (Except.error e, evs) =>
          (Except.error e, Event.verifyAuthority env.deployer :: Event.txCreateBuffer :: evs)
      else
        (Except.error (CmdErr.txFailed "create buffer"),
         [Event.verifyAuthority env.deployer, Event.txCreateBuffer])

/-- Mutation done through `state.deployed_programs.last_mut()` (upgrade.rs:95,
116): set `last_upgraded` on the final record. -/
def set_last_upgraded (t : Int) : List DeployedProgram → List DeployedProgram
  | [] => []
  | [p] => [{ p with last_upgraded := some t }]
  | p :: q :: rest => p :: set_last_upgraded t (q :: rest)

/-- `upgrade::execute` (upgrade.rs:22-121): preconditions, balance check, pick
the last deployed record, run the upgrade sequence, then mutate that record and
save state. -/
def upgrade_execute (env : UpgradeEnv) (st : ProjectState) :
    Except CmdErr Unit × List Event :=
  if !env.deployer_exists then (Except.error CmdErr.noDeployer, [])
  else if st.deployed_programs.isEmpty then (Except.error CmdErr.noPrograms, [])
  else
    match env.program_file with
    | none => (Except.error CmdErr.missingArtifact, [])
    | some program_data =>
      if !env.confirmed then (Except.ok (), [])
      else
        match env.balance with
        | none => (Except.error (CmdErr.rpcFailed "get_balance"), [])
        | some balance =>
          if balance < MIN_UPGRADE_BALANCE then
            (Except.error CmdErr.insufficientBalance, [Event.balanceCheck balance])
          else
            match st.deployed_programs.getLast? with
            | none => (Except.error CmdErr.noPrograms, [Event.balanceCheck balance])
            | some last_program =>
              match env.parse_program_id last_program.program_id with
              | none => (Except.error CmdErr.invalidProgramId, [Event.balanceCheck balance])
              | some program_id =>
                match upgrade_program_bpf_upgradeable env program_id program_data with
                | (Except.error e, evs) =>
                  (Except.error e, Event.balanceCheck balance :: evs)
                | (Except.ok _, evs) =>
                  let newState : ProjectState :=
                    { st with
                      deployed_programs := set_last_upgraded env.now st.deployed_programs,
                      last_balance := balance }
                  (Except.ok (),
                   Event.balanceCheck balance :: evs ++ [Event.saveState newState])

/- ---------------------------------------------------------------------------
Rotate (rotate.rs:14-91 `execute`, rotate.rs:94-127 `transfer_upgrade_authority`).
--------------------------------------------------------------------------- -/
/-- Environment of one rotate run. -/
structure RotateEnv where
  /-- `config.deployer_exists()` (rotate.rs:19). -/
  deployer_exists : Bool
  /-- The loaded old deployer's public key (rotate.rs:26). -/
  old_deployer : Pubkey
  /-- Fresh `Keypair::new()` (rotate.rs:43). -/
  new_deployer : Pubkey
  /-- `prompt_confirmation("Proceed?")` (rotate.rs:38). -/
  confirmed : Bool
  /-- `Pubkey::from_str` on a stored program-id string (rotate.rs:59-60). -/
  parse_program_id : String → Option Pubkey
  /-- Outcome of the set-authority transaction for the i-th record
  (rotate.rs:120-122). -/
  set_authority_ok : Nat → Bool

/-- The `for program in &state.deployed_programs` loop (rotate.rs:58-72): for
each record, parse its id and submit `transfer_upgrade_authority` — a
`set_upgrade_authority(programdata, old, Some(new))` transaction signed by the
old deployer (rotate.rs:94-127) — stopping at the first failure. -/
def rotate_transfer_loop (env : RotateEnv) :
    List DeployedProgram → Nat → Except CmdErr Unit × List Event
  | [], _ => (Except.ok (), [])
  | p :: rest, i =>
    match env.parse_program_id p.program_id with
    | none => (Except.error CmdErr.invalidProgramId, [])
    | some program_id =>
      let ev := Event.txSetAuthority (find_program_address program_id)
        env.old_deployer (some env.new_deployer)
      if env.set_authority_ok i then
        let r := rotate_transfer_loop env rest (i + 1)
        (r.1, ev :: r.2)
      else
        (Except.error (CmdErr.txFailed "transfer authority"), [ev])

/-- `rotate::execute` (rotate.rs:14-91): generate a new deployer, transfer
authority for every tracked record, and only then save the new deployer. -/
def rotate_execute (env : RotateEnv) (st : ProjectState) :
    Except CmdErr Unit × List Event :=
  if !env.deployer_exists then (Except.error CmdErr.noDeployer, [])
  else if !env.confirmed then (Except.ok (), [])
  else
    match rotate_transfer_loop env st.deployed_programs 0 with
    | (Except.error e, evs) => (Except.error e, evs)
    | (Except.ok _, evs) => (Except.ok (), evs ++ [Event.saveDeployer env.new_deployer])

/- ---------------------------------------------------------------------------
Finalize (finalize.rs:16-113 `execute`, finalize.rs:118-159 `finalize_program`).
--------------------------------------------------------------------------- -/
/-- Environment of one finalize run. -/
structure FinalizeEnv where
  /-- `config.deployer_exists()` (finalize.rs:21). -/
  deployer_exists : Bool
  /-- The loaded deployer's public key (finalize.rs:28). -/
  deployer : Pubkey
  /-- The program id argument, as given on the command line (finalize.rs:16). -/
  program_id_str : String
  /-- `Pubkey::from_str(&program_id_str)` (finalize.rs:31-32). -/
  parse_program_id : String → Option Pubkey
  /-- `prompt_confirmation(...)` (finalize.rs:64). -/
  confirmed : Bool
  /-- The typed confirmation line (finalize.rs:75-77). -/
  confirmation_input : String
  /-- Fetch + decode of the ProgramData account before the set-authority
  transaction (finalize.rs:167-174). -/
  account_before : FetchedAccount
  /-- Outcome of the set-authority(None) transaction (finalize.rs:150-152). -/
  set_authority_ok : Bool
  /-- Fetch + decode of the ProgramData account after the set-authority
  transaction (finalize.rs:208-215). -/
  account_after : FetchedAccount

/-- `finalize_program` (finalize.rs:118-159): verify current authority, submit
`set_upgrade_authority(programdata, authority, None)`, then re-read and require
the authority to be absent (`verify_immutable`). -/
def finalize_program (env : FinalizeEnv) (program_id : Pubkey) :
    Except CmdErr Unit × List Event :=
  let programdata_address := find_program_address program_id
  match verify_current_authority env.account_before env.deployer with
  | Except.error e => (Except.error (CmdErr.verify e), [Event.verifyAuthority env.deployer])
  | Except.ok _ =>
    let ev := Event.txSetAuthority programdata_address env.deployer none
    if !env.set_authority_ok then
      (Except.error (CmdErr.txFailed "finalize"), [Event.verifyAuthority env.deployer, ev])
    else
      match verify_immutable env.account_after with
      | Except.error e =>
        (Except.error (CmdErr.verify e), [Event.verifyAuthority env.deployer, ev])
      | Except.ok _ => (Except.ok (), [Event.verifyAuthority env.deployer, ev])

/-- `finalize::execute` (finalize.rs:16-113): parse the program id, double
confirmation, then `finalize_program`. -/
def finalize_execute (env : FinalizeEnv) (_st : ProjectState) :
    Except CmdErr Unit × List Event :=
  if !env.deployer_exists then (Except.error CmdErr.noDeployer, [])
  else
    match env.parse_program_id env.program_id_str with
    | none => (Except.error CmdErr.invalidProgramId, [])
    | some program_id =>
      if !env.confirmed then (Except.ok (), [])
      else if env.confirmation_input.trim ≠ env.program_id_str then
        (Except.error CmdErr.confirmationMismatch, [])
      else finalize_program env program_id

/-- The local state deploy saves on success (deploy.rs:115-122). -/
def deploy_new_state (env : DeployEnv) (st : ProjectState) (balance : Nat) : ProjectState :=
  { st with
    deployed_programs := st.deployed_programs ++
      [{ program_id := toString env.program_id,
         deployed_at := env.now,
         last_upgraded := none }],
    last_balance := balance }

/-- The local state upgrade saves on success (upgrade.rs:116-118). -/
def upgrade_new_state (env : UpgradeEnv) (st : ProjectState) (balance : Nat) : ProjectState :=
  { st with
    deployed_programs := set_last_upgraded env.now st.deployed_programs,
    last_balance := balance }

/-- Environment used to instantiate the C5 theorem at a concrete mismatch. -/
def c5Env : UpgradeEnv :=
  { deployer_exists := true
    deployer := 1
    program_file := some []
    confirmed := true
    balance := some 2000000000
    parse_program_id := fun _ => some 7
    programdata_account := some (some (UpgradeableLoaderState.programData 0 (some 42)))
    buffer_rent := some 1
    create_buffer_ok := true
    write_ok := fun _ => true
    upgrade_tx_ok := true
    now := 11 }

/-- State used to instantiate the C5 theorem. -/
def c5State : ProjectState :=
  { network := "devnet"
    deployed_programs := [{ program_id := "A", deployed_at := 3, last_upgraded := none }]
    last_balance := 0 }

/-- The set-authority event rotate's transfer loop submits for one record
(rotate.rs:107-118): `set_upgrade_authority(programdata, old, Some(new))`,
signed by the old deployer. -/
def rotateLoopEvent (env : RotateEnv) (p : DeployedProgram) : Event :=
  Event.txSetAuthority (find_program_address ((env.parse_program_id p.program_id).getD 0))
    env.old_deployer (some env.new_deployer)

/-- Environment used to instantiate the C8 theorem at a concrete low balance. -/
def c8Env : DeployEnv :=
  { deployer_exists := true
    deployer := 1
    program_file := some []
    confirmed := true
    balance := some 4
    program_id := 9
    buffer_rent := some 1
    create_buffer_ok := true
    write_ok := fun _ => true
    programdata_rent := some 1
    deploy_tx_ok := true
    now := 5 }

/-- Environment used to instantiate the C9 theorem at a successful deploy. -/
def c9Env : DeployEnv :=
  { deployer_exists := true
    deployer := 1
    program_file := some []
    confirmed := true
    balance := some 6000000000
    program_id := 9
    buffer_rent := some 1
    create_buffer_ok := true
    write_ok := fun _ => true
    programdata_rent := some 1
    deploy_tx_ok := true
    now := 5 }

/-- Environment used to instantiate the C10 theorem at a successful upgrade. -/
def c10Env : UpgradeEnv :=
  { deployer_exists := true
    deployer := 1
    program_file := some []
    confirmed := true
    balance := some 2000000000
    parse_program_id := fun _ => some 7
    programdata_account := some (some (UpgradeableLoaderState.programData 0 (some 1)))
    buffer_rent := some 1
    create_buffer_ok := true
    write_ok := fun _ => true
    upgrade_tx_ok := true
    now := 11 }

/-- Environment used to instantiate the rotate theorems. -/
def c3Env : RotateEnv :=
  { deployer_exists := true
    old_deployer := 1
    new_deployer := 2
    confirmed := true
    parse_program_id := fun _ => some 10
    set_authority_ok := fun _ => true }

/-- State with three tracked records, used to instantiate the C4 theorem at the
spec scenario (transfer 2 of 3 fails). -/
def c4State : ProjectState :=
  { network := "devnet"
    deployed_programs :=
      [{ program_id := "A", deployed_at := 3, last_upgraded := none },
       { program_id := "B", deployed_at := 4, last_upgraded := none },
       { program_id := "C", deployed_at := 5, last_upgraded := none }]
    last_balance := 0 }

/-- Rotate environment in which the set-authority transaction for the second
record fails. -/
def c4Env : RotateEnv :=
  { deployer_exists := true
    old_deployer := 1
    new_deployer := 2
    confirmed := true
    parse_program_id := fun _ => some 10
    set_authority_ok := fun i => i != 1 }

/-- Environment used to instantiate the C6 theorem at a confirmed finalization. -/
def c6Env : FinalizeEnv :=
  { deployer_exists := true
    deployer := 1
    program_id_str := "A"
    parse_program_id := fun _ => some 7
    confirmed := true
    confirmation_input := "A"
    account_before := some (some (UpgradeableLoaderState.programData 0 (some 1)))
    set_authority_ok := true
    account_after := some (some (UpgradeableLoaderState.programData 0 none)) }

/-- Environment used to instantiate the C7 theorem at an already-immutable
program. -/
def c7Env : FinalizeEnv :=
  { deployer_exists := true
    deployer := 1
    program_id_str := "A"
    parse_program_id := fun _ => some 7
    confirmed := true
    confirmation_input := "A"
    account_before := some (some (UpgradeableLoaderState.programData 0 none))
    set_authority_ok := true
    account_after := some (some (UpgradeableLoaderState.programData 0 none)) }

/- ---------------------------------------------------------------------------
Theorems.
--------------------------------------------------------------------------- -/

theorem rustChunks_nil (s : Nat) : rustChunks s ([] : List α) = [] := by
  rw [rustChunks]

theorem rustChunks_cons (s : Nat) (l : List α) (hs : s ≠ 0) (hl : l ≠ []) :
    rustChunks s l = l.take s :: rustChunks s (l.drop s) := by
  rcases l with _ | ⟨a, rest⟩
  · exact absurd rfl hl
  · rw [rustChunks]
    simp [hs]

theorem rustChunks_flatten (s : Nat) (hs : s ≠ 0) (l : List α) :
    (rustChunks s l).flatten = l := by
  by_cases hl : l = []
  · subst hl
    simp [rustChunks_nil]
  · rw [rustChunks_cons s l hs hl]
    rw [List.flatten_cons, rustChunks_flatten s hs (l.drop s)]
    exact List.take_append_drop s l
termination_by l.length
decreasing_by
  rcases l with _ | ⟨a, l⟩
  · simp at hl
  · simp only [List.length_drop, List.length_cons]
    omega

theorem ceil_div_step (n s : Nat) (hs : 0 < s) (hn : 0 < n) :
    (n + s - 1) / s = 1 + (n - s + s - 1) / s := by
  rcases Nat.lt_or_ge s n with h | h
  · have h1 : n - s + s - 1 = n - 1 := by omega
    have h2 : n + s - 1 = (n - 1) + s := by omega
    rw [h1, h2, Nat.add_div_right _ hs]
    omega
  · have h1 : n - s = 0 := by omega
    have h2 : n + s - 1 = (n - 1) + s := by omega
    rw [h1, h2, Nat.add_div_right _ hs, Nat.zero_add]
    have h3 : (n - 1) / s = 0 := Nat.div_eq_of_lt (by omega)
    have h4 : (s - 1) / s = 0 := Nat.div_eq_of_lt (by omega)
    omega

theorem rustChunks_length (s : Nat) (hs : s ≠ 0) (l : List α) :
    (rustChunks s l).length = (l.length + s - 1) / s := by
  by_cases hl : l = []
  · subst hl
    simp [rustChunks_nil, Nat.div_eq_of_lt, Nat.sub_lt (Nat.pos_of_ne_zero hs)]
  · rw [rustChunks_cons s l hs hl]
    rw [List.length_cons, rustChunks_length s hs (l.drop s)]
    rw [List.length_drop]
    have hn : 0 < l.length := List.length_pos.mpr hl
    rw [ceil_div_step l.length s (Nat.pos_of_ne_zero hs) hn]
    omega
termination_by l.length
decreasing_by
  rcases l with _ | ⟨a, l⟩
  · simp at hl
  · simp only [List.length_drop, List.length_cons]
    omega

theorem write_pieces_length (program_data : List Nat) :
    (write_pieces program_data).length = (program_data.length + chunk_size - 1) / chunk_size := by
  simp [write_pieces, List.enum_length, rustChunks_length chunk_size (by decide)]

theorem write_pieces_get (program_data : List Nat) (i : Nat)
    (h : i < (write_pieces program_data).length) :
    (write_pieces program_data).get ⟨i, h⟩ =
      ⟨i * chunk_size % U32_MOD,
       (rustChunks chunk_size program_data).get ⟨i, by simpa [write_pieces] using h⟩⟩ := by
  simp [write_pieces, List.get_eq_getElem, List.getElem_map, List.getElem_enum]

theorem write_pieces_offset (program_data : List Nat) (i : Nat)
    (h : i < (write_pieces program_data).length) :
    ((write_pieces program_data).get ⟨i, h⟩).offset = i * chunk_size % U32_MOD := by
  rw [write_pieces_get]

theorem write_pieces_offset_of_lt (program_data : List Nat) (i : Nat)
    (h : i < (write_pieces program_data).length) (hfit : i * chunk_size < U32_MOD) :
    ((write_pieces program_data).get ⟨i, h⟩).offset = i * chunk_size := by
  rw [write_pieces_offset program_data i h]
  exact Nat.mod_eq_of_lt hfit

theorem write_pieces_flatten (program_data : List Nat) :
    ((write_pieces program_data).map WritePiece.bytes).flatten = program_data := by
  rw [write_pieces, List.map_map]
  have hcomp : (WritePiece.bytes ∘ fun p : Nat × List Nat =>
      (⟨p.1 * chunk_size % U32_MOD, p.2⟩ : WritePiece)) = Prod.snd := rfl
  rw [hcomp, List.enum_map_snd, rustChunks_flatten chunk_size (by decide)]

/- ---------------------------------------------------------------------------
Helper lemmas.
--------------------------------------------------------------------------- -/
theorem verify_upgrade_authority_ok_iff (account : FetchedAccount) (expected : Pubkey) :
    verify_upgrade_authority account expected = Except.ok () ↔
      ∃ slot, account = some (some (UpgradeableLoaderState.programData slot (some expected))) := by
  constructor
  · intro h
    rcases account with _ | a
    · simp [verify_upgrade_authority] at h
    rcases a with _ | st
    · simp [verify_upgrade_authority] at h
    cases st with
    | uninitialized => simp [verify_upgrade_authority] at h
    | buffer x => simp [verify_upgrade_authority] at h
    | program x => simp [verify_upgrade_authority] at h
    | programData slot auth =>
      rcases auth with _ | k
      · simp [verify_upgrade_authority] at h
      · by_cases hk : k = expected
        · subst hk
          exact ⟨slot, rfl⟩
        · simp [verify_upgrade_authority, hk] at h
  · rintro ⟨slot, rfl⟩
    simp [verify_upgrade_authority]

theorem verify_current_authority_ok_iff (account : FetchedAccount) (expected : Pubkey) :
    verify_current_authority account expected = Except.ok () ↔
      ∃ slot, account = some (some (UpgradeableLoaderState.programData slot (some expected))) := by
  constructor
  · intro h
    rcases account with _ | a
    · simp [verify_current_authority] at h
    rcases a with _ | st
    · simp [verify_current_authority] at h
    cases st with
    | uninitialized => simp [verify_current_authority] at h
    | buffer x => simp [verify_current_authority] at h
    | program x => simp [verify_current_authority] at h
    | programData slot auth =>
      rcases auth with _ | k
      · simp [verify_current_authority] at h
      · by_cases hk : k = expected
        · subst hk
          exact ⟨slot, rfl⟩
        · simp [verify_current_authority, hk] at h
  · rintro ⟨slot, rfl⟩
    simp [verify_current_authority]

theorem run_writes_all_ok (write_ok : Nat → Bool) (total : Nat)
    (pieces : List WritePiece) (i : Nat) (h : ∀ j, write_ok j = true) :
    run_writes write_ok total pieces i =
      (Except.ok (), pieces.map fun p => Event.txWrite p.offset p.bytes) := by
  induction pieces generalizing i with
  | nil => rfl
  | cons p rest ih => simp [run_writes, h, ih]

theorem run_writes_isTx (write_ok : Nat → Bool) (total : Nat)
    (pieces : List WritePiece) (i : Nat) :
    ∀ e ∈ (run_writes write_ok total pieces i).2, e.isTx = true := by
  induction pieces generalizing i with
  | nil =>
    intro e he
    simp [run_writes] at he
  | cons p rest ih =>
    intro e he
    by_cases h : write_ok i
    · simp only [run_writes, h, if_true, List.mem_cons] at he
      rcases he with he | he
      · subst he
        rfl
      · exact ih (i + 1) e he
    · simp only [run_writes, h, if_false, Bool.false_eq_true, List.mem_cons,
        List.not_mem_nil, or_false] at he
      subst he
      rfl

theorem write_buffer_isTx (write_ok : Nat → Bool) (program_data : List Nat) :
    ∀ e ∈ (write_program_data_to_buffer write_ok program_data).2, e.isTx = true :=
  run_writes_isTx write_ok _ _ 0

theorem deploy_program_isTx (env : DeployEnv) (program_data : List Nat) :
    ∀ e ∈ (deploy_program_bpf_upgradeable env program_data).2, e.isTx = true := by
  intro e he
  have hw := write_buffer_isTx env.write_ok program_data
  unfold deploy_program_bpf_upgradeable at he
  rcases hsp : write_program_data_to_buffer env.write_ok program_data with ⟨res, evs⟩
  rw [hsp] at he hw
  simp only at hw
  split at he
  · simp at he
  · split at he
    · cases res with
      | ok u =>
        simp only at he
        split at he
        · simp at he
          rcases he with he | he
          · subst he; rfl
          · exact hw e he
        · split at he <;>
          · simp at he
            rcases he with he | he | he
            · subst he; rfl
            · exact hw e he
            · subst he; rfl
      | error err =>
        simp only [List.mem_cons] at he
        rcases he with he | he
        · subst he; rfl
        · exact hw e he
    · simp at he
      subst he
      rfl

theorem upgrade_program_events (env : UpgradeEnv) (pid : Pubkey) (pd : List Nat) :
    ∀ e ∈ (upgrade_program_bpf_upgradeable env pid pd).2,
      e = Event.verifyAuthority env.deployer ∨ e.isTx = true := by
  intro e he
  have hw := write_buffer_isTx env.write_ok pd
  unfold upgrade_program_bpf_upgradeable at he
  rcases hsp : write_program_data_to_buffer env.write_ok pd with ⟨res, evs⟩
  rw [hsp] at he hw
  simp only at hw
  split at he
  · simp at he
    subst he
    exact Or.inl rfl
  · split at he
    · simp at he
      subst he
      exact Or.inl rfl
    · split at he
      · cases res with
        | ok u =>
          simp only at he
          split at he <;>
          · simp at he
            rcases he with he | he | he | he
            · subst he; exact Or.inl rfl
            · subst he; exact Or.inr rfl
            · exact Or.inr (hw e he)
            · subst he; exact Or.inr rfl
        | error err =>
          simp at he
          rcases he with he | he | he
          · subst he; exact Or.inl rfl
          · subst he; exact Or.inr rfl
          · exact Or.inr (hw e he)
      · simp at he
        rcases he with he | he
        · subst he; exact Or.inl rfl
        · subst he; exact Or.inr rfl

theorem deploy_program_ok (env : DeployEnv) (pd : List Nat)
    (h : (deploy_program_bpf_upgradeable env pd).1 = Except.ok ()) :
    env.deploy_tx_ok = true
    ∧ Event.txDeploy env.program_id ∈ (deploy_program_bpf_upgradeable env pd).2 := by
  rcases hbr : env.buffer_rent with _ | br
  · simp [deploy_program_bpf_upgradeable, hbr] at h
  cases hcb : env.create_buffer_ok
  · simp [deploy_program_bpf_upgradeable, hbr, hcb] at h
  rcases hwr : write_program_data_to_buffer env.write_ok pd with ⟨res, evs⟩
  cases res with
  | error e => simp [deploy_program_bpf_upgradeable, hbr, hcb, hwr] at h
  | ok u =>
    rcases hpr : env.programdata_rent with _ | pr
    · simp [deploy_program_bpf_upgradeable, hbr, hcb, hwr, hpr] at h
    cases hdt : env.deploy_tx_ok
    · simp [deploy_program_bpf_upgradeable, hbr, hcb, hwr, hpr, hdt] at h
    · refine ⟨rfl, ?_⟩
      simp [deploy_program_bpf_upgradeable, hbr, hcb, hwr, hpr, hdt]

theorem upgrade_program_ok (env : UpgradeEnv) (pid : Pubkey) (pd : List Nat)
    (h : (upgrade_program_bpf_upgradeable env pid pd).1 = Except.ok ()) :
    env.upgrade_tx_ok = true
    ∧ Event.txUpgrade pid ∈ (upgrade_program_bpf_upgradeable env pid pd).2
    ∧ verify_upgrade_authority env.programdata_account env.deployer = Except.ok () := by
  rcases hv : verify_upgrade_authority env.programdata_account env.deployer with e | u
  · simp [upgrade_program_bpf_upgradeable, hv] at h
  rcases hbr : env.buffer_rent with _ | br
  · simp [upgrade_program_bpf_upgradeable, hv, hbr] at h
  cases hcb : env.create_buffer_ok
  · simp [upgrade_program_bpf_upgradeable, hv, hbr, hcb] at h
  rcases hwr : write_program_data_to_buffer env.write_ok pd with ⟨res, evs⟩
  cases res with
  | error e2 => simp [upgrade_program_bpf_upgradeable, hv, hbr, hcb, hwr] at h
  | ok u2 =>
    cases hut : env.upgrade_tx_ok
    · simp [upgrade_program_bpf_upgradeable, hv, hbr, hcb, hwr, hut] at h
    · refine ⟨rfl, ?_, ?_⟩
      · simp [upgrade_program_bpf_upgradeable, hv, hbr, hcb, hwr, hut]
      · cases u
        rfl

theorem upgrade_program_verify_error (env : UpgradeEnv) (pid : Pubkey) (pd : List Nat)
    (e : VerifyErr)
    (h : verify_upgrade_authority env.programdata_account env.deployer = Except.error e) :
    upgrade_program_bpf_upgradeable env pid pd =
      (Except.error (CmdErr.verify e), [Event.verifyAuthority env.deployer]) := by
  unfold upgrade_program_bpf_upgradeable
  rw [h]

theorem deploy_execute_trace_shape (env : DeployEnv) (st : ProjectState) :
    (deploy_execute env st).2 = []
    ∨ ∃ b evs, env.balance = some b
        ∧ (deploy_execute env st).2 = Event.balanceCheck b :: evs
        ∧ ∀ e ∈ evs, e.isTx = true ∨ ∃ s, e = Event.saveState s := by
  cases hde : env.deployer_exists
  · left
    simp [deploy_execute, hde]
  rcases hpf : env.program_file with _ | pdata
  · left
    simp [deploy_execute, hde, hpf]
  cases hc : env.confirmed
  · left
    simp [deploy_execute, hde, hpf, hc]
  rcases hb : env.balance with _ | b
  · left
    simp [deploy_execute, hde, hpf, hc, hb]
  by_cases hlt : b < MIN_DEPLOY_BALANCE
  · right
    exact ⟨b, [], rfl, by simp [deploy_execute, hde, hpf, hc, hb, hlt], by simp⟩
  · rcases hdp : deploy_program_bpf_upgradeable env pdata with ⟨res, evs⟩
    have hevs := deploy_program_isTx env pdata
    rw [hdp] at hevs
    simp only at hevs
    cases res with
    | error e =>
      right
      refine ⟨b, evs, rfl, by simp [deploy_execute, hde, hpf, hc, hb, hlt, hdp], ?_⟩
      intro x hx
      exact Or.inl (hevs x hx)
    | ok u =>
      right
      refine ⟨b, evs ++ [Event.saveState (deploy_new_state env st b)], rfl,
        by simp [deploy_execute, hde, hpf, hc, hb, hlt, hdp, deploy_new_state], ?_⟩
      intro x hx
      rcases List.mem_append.mp hx with hx | hx
      · exact Or.inl (hevs x hx)
      · simp at hx
        exact Or.inr ⟨_, hx⟩

theorem deploy_execute_saveState (env : DeployEnv) (st st' : ProjectState)
    (h : Event.saveState st' ∈ (deploy_execute env st).2) :
    (deploy_execute env st).1 = Except.ok ()
    ∧ env.deploy_tx_ok = true
    ∧ Event.txDeploy env.program_id ∈ (deploy_execute env st).2
    ∧ ∃ b, env.balance = some b ∧ MIN_DEPLOY_BALANCE ≤ b
        ∧ st' = deploy_new_state env st b := by
  cases hde : env.deployer_exists
  · simp [deploy_execute, hde] at h
  rcases hpf : env.program_file with _ | pdata
  · simp [deploy_execute, hde, hpf] at h
  cases hc : env.confirmed
  · simp [deploy_execute, hde, hpf, hc] at h
  rcases hb : env.balance with _ | b
  · simp [deploy_execute, hde, hpf, hc, hb] at h
  by_cases hlt : b < MIN_DEPLOY_BALANCE
  · simp [deploy_execute, hde, hpf, hc, hb, hlt] at h
  rcases hdp : deploy_program_bpf_upgradeable env pdata with ⟨res, evs⟩
  have hevs := deploy_program_isTx env pdata
  rw [hdp] at hevs
  simp only at hevs
  have hexec := @rfl _ (deploy_execute env st)
  cases res with
  | error e =>
    rw [show deploy_execute env st = (Except.error e, Event.balanceCheck b :: evs) from by
      simp [deploy_execute, hde, hpf, hc, hb, hlt, hdp]] at h
    simp only [List.mem_cons] at h
    rcases h with h | h
    · simp at h
    · have := hevs _ h
      simp [Event.isTx] at this
  | ok u =>
    have hexeq : deploy_execute env st =
        (Except.ok (), Event.balanceCheck b ::
          (evs ++ [Event.saveState (deploy_new_state env st b)])) := by
      simp [deploy_execute, hde, hpf, hc, hb, hlt, hdp, deploy_new_state]
    rw [hexeq] at h ⊢
    simp only [List.mem_cons, List.mem_append] at h
    rcases h with h | h | h
    · simp at h
    · have := hevs _ h
      simp [Event.isTx] at this
    · have hst : st' = deploy_new_state env st b := by
        simpa using h
      have hok : (deploy_program_bpf_upgradeable env pdata).1 = Except.ok () := by
        rw [hdp]
      have hdone := deploy_program_ok env pdata hok
      refine ⟨rfl, hdone.1, ?_, b, rfl, by omega, hst⟩
      have hmem := hdone.2
      rw [hdp] at hmem
      simp only at hmem
      simp [hmem]

theorem deploy_execute_low_balance (env : DeployEnv) (st : ProjectState) (b : Nat)
    (hb : env.balance = some b) (hlt : b < MIN_DEPLOY_BALANCE) :
    deploy_execute env st = (Except.error CmdErr.insufficientBalance, [Event.balanceCheck b])
    ∨ (deploy_execute env st).2 = [] := by
  cases hde : env.deployer_exists
  · right
    simp [deploy_execute, hde]
  rcases hpf : env.program_file with _ | pdata
  · right
    simp [deploy_execute, hde, hpf]
  cases hc : env.confirmed
  · right
    simp [deploy_execute, hde, hpf, hc]
  left
  simp [deploy_execute, hde, hpf, hc, hb, hlt]

theorem upgrade_execute_trace_shape (env : UpgradeEnv) (st : ProjectState) :
    (upgrade_execute env st).2 = []
    ∨ ∃ b evs, env.balance = some b
        ∧ (upgrade_execute env st).2 = Event.balanceCheck b :: evs
        ∧ ∀ e ∈ evs, e = Event.verifyAuthority env.deployer ∨ e.isTx = true
            ∨ ∃ s, e = Event.saveState s := by
  cases hde : env.deployer_exists
  · left
    simp [upgrade_execute, hde]
  cases hemp : st.deployed_programs.isEmpty
  · rcases hpf : env.program_file with _ | pdata
    · left
      simp [upgrade_execute, hde, hemp, hpf]
    cases hc : env.confirmed
    · left
      simp [upgrade_execute, hde, hemp, hpf, hc]
    rcases hb : env.balance with _ | b
    · left
      simp [upgrade_execute, hde, hemp, hpf, hc, hb]
    by_cases hlt : b < MIN_UPGRADE_BALANCE
    · right
      exact ⟨b, [], rfl, by simp [upgrade_execute, hde, hemp, hpf, hc, hb, hlt], by simp⟩
    rcases hlast : st.deployed_programs.getLast? with _ | last_program
    · right
      exact ⟨b, [], rfl,
        by simp [upgrade_execute, hde, hemp, hpf, hc, hb, hlt, hlast], by simp⟩
    rcases hpid : env.parse_program_id last_program.program_id with _ | pid
    · right
      exact ⟨b, [], rfl,
        by simp [upgrade_execute, hde, hemp, hpf, hc, hb, hlt, hlast, hpid], by simp⟩
    rcases hup : upgrade_program_bpf_upgradeable env pid pdata with ⟨res, evs⟩
    have hevs := upgrade_program_events env pid pdata
    rw [hup] at hevs
    simp only at hevs
    cases res with
    | error e =>
      right
      refine ⟨b, evs, rfl,
        by simp [upgrade_execute, hde, hemp, hpf, hc, hb, hlt, hlast, hpid, hup], ?_⟩
      intro x hx
      rcases hevs x hx with hx2 | hx2
      · exact Or.inl hx2
      · exact Or.inr (Or.inl hx2)
    | ok u =>
      right
      refine ⟨b, evs ++ [Event.saveState (upgrade_new_state env st b)], rfl,
        by simp [upgrade_execute, hde, hemp, hpf, hc, hb, hlt, hlast, hpid, hup,
          upgrade_new_state], ?_⟩
      intro x hx
      rcases List.mem_append.mp hx with hx | hx
      · rcases hevs x hx with hx2 | hx2
        · exact Or.inl hx2
        · exact Or.inr (Or.inl hx2)
      · simp at hx
        exact Or.inr (Or.inr ⟨_, hx⟩)
  · left
    simp [upgrade_execute, hde, hemp]

theorem upgrade_execute_saveState (env : UpgradeEnv) (st st' : ProjectState)
    (h : Event.saveState st' ∈ (upgrade_execute env st).2) :
    (upgrade_execute env st).1 = Except.ok ()
    ∧ env.upgrade_tx_ok = true
    ∧ (∃ b, env.balance = some b ∧ MIN_UPGRADE_BALANCE ≤ b
        ∧ st' = upgrade_new_state env st b)
    ∧ ∃ last_program pid, st.deployed_programs.getLast? = some last_program
        ∧ env.parse_program_id last_program.program_id = some pid
        ∧ Event.txUpgrade pid ∈ (upgrade_execute env st).2
        ∧ verify_upgrade_authority env.programdata_account env.deployer = Except.ok () := by
  cases hde : env.deployer_exists
  · simp [upgrade_execute, hde] at h
  cases hemp : st.deployed_programs.isEmpty
  case true => simp [upgrade_execute, hde, hemp] at h
  rcases hpf : env.program_file with _ | pdata
  · simp [upgrade_execute, hde, hemp, hpf] at h
  cases hc : env.confirmed
  · simp [upgrade_execute, hde, hemp, hpf, hc] at h
  rcases hb : env.balance with _ | b
  · simp [upgrade_execute, hde, hemp, hpf, hc, hb] at h
  by_cases hlt : b < MIN_UPGRADE_BALANCE
  · simp [upgrade_execute, hde, hemp, hpf, hc, hb, hlt] at h
  rcases hlast : st.deployed_programs.getLast? with _ | last_program
  · simp [upgrade_execute, hde, hemp, hpf, hc, hb, hlt, hlast] at h
  rcases hpid : env.parse_program_id last_program.program_id with _ | pid
  · simp [upgrade_execute, hde, hemp, hpf, hc, hb, hlt, hlast, hpid] at h
  rcases hup : upgrade_program_bpf_upgradeable env pid pdata with ⟨res, evs⟩
  have hevs := upgrade_program_events env pid pdata
  rw [hup] at hevs
  simp only at hevs
  cases res with
  | error e =>
    rw [show upgrade_execute env st = (Except.error e, Event.balanceCheck b :: evs) from by
      simp [upgrade_execute, hde, hemp, hpf, hc, hb, hlt, hlast, hpid, hup]] at h
    simp only [List.mem_cons] at h
    rcases h with h | h
    · simp at h
    · rcases hevs _ h with h2 | h2
      · simp at h2
      · simp [Event.isTx] at h2
  | ok u =>
    have hexeq : upgrade_execute env st =
        (Except.ok (), Event.balanceCheck b ::
          (evs ++ [Event.saveState (upgrade_new_state env st b)])) := by
      simp [upgrade_execute, hde, hemp, hpf, hc, hb, hlt, hlast, hpid, hup, upgrade_new_state]
    rw [hexeq] at h ⊢
    simp only [List.mem_cons, List.mem_append] at h
    rcases h with h | h | h
    · simp at h
    · rcases hevs _ h with h2 | h2
      · simp at h2
      · simp [Event.isTx] at h2
    · have hst : st' = upgrade_new_state env st b := by
        simpa using h
      have hok : (upgrade_program_bpf_upgradeable env pid pdata).1 = Except.ok () := by
        rw [hup]
      have hdone := upgrade_program_ok env pid pdata hok
      refine ⟨rfl, hdone.1, ⟨b, rfl, by omega, hst⟩, last_program, pid, rfl, hpid, ?_,
        hdone.2.2⟩
      have hmem := hdone.2.1
      rw [hup] at hmem
      simp only at hmem
      simp [hmem]

theorem upgrade_execute_low_balance (env : UpgradeEnv) (st : ProjectState) (b : Nat)
    (hb : env.balance = some b) (hlt : b < MIN_UPGRADE_BALANCE) :
    upgrade_execute env st = (Except.error CmdErr.insufficientBalance, [Event.balanceCheck b])
    ∨ (upgrade_execute env st).2 = [] := by
  cases hde : env.deployer_exists
  · right
    simp [upgrade_execute, hde]
  cases hemp : st.deployed_programs.isEmpty
  case true =>
    right
    simp [upgrade_execute, hde, hemp]
  rcases hpf : env.program_file with _ | pdata
  · right
    simp [upgrade_execute, hde, hemp, hpf]
  cases hc : env.confirmed
  · right
    simp [upgrade_execute, hde, hemp, hpf, hc]
  left
  simp [upgrade_execute, hde, hemp, hpf, hc, hb, hlt]

theorem upgrade_execute_verify_fails (env : UpgradeEnv) (st : ProjectState) (err : VerifyErr)
    (hv : verify_upgrade_authority env.programdata_account env.deployer = Except.error err) :
    (∀ e ∈ (upgrade_execute env st).2, e.isTx = false ∧ ∀ s, e ≠ Event.saveState s)
    ∧ (Event.verifyAuthority env.deployer ∈ (upgrade_execute env st).2 →
        (upgrade_execute env st).1 = Except.error (CmdErr.verify err)) := by
  cases hde : env.deployer_exists
  · simp [upgrade_execute, hde]
  cases hemp : st.deployed_programs.isEmpty
  case true => simp [upgrade_execute, hde, hemp]
  rcases hpf : env.program_file with _ | pdata
  · simp [upgrade_execute, hde, hemp, hpf]
  cases hc : env.confirmed
  · simp [upgrade_execute, hde, hemp, hpf, hc]
  rcases hb : env.balance with _ | b
  · simp [upgrade_execute, hde, hemp, hpf, hc, hb]
  by_cases hlt : b < MIN_UPGRADE_BALANCE
  · simp [upgrade_execute, hde, hemp, hpf, hc, hb, hlt, Event.isTx]
  rcases hlast : st.deployed_programs.getLast? with _ | last_program
  · simp [upgrade_execute, hde, hemp, hpf, hc, hb, hlt, hlast, Event.isTx]
  rcases hpid : env.parse_program_id last_program.program_id with _ | pid
  · simp [upgrade_execute, hde, hemp, hpf, hc, hb, hlt, hlast, hpid, Event.isTx]
  have hup := upgrade_program_verify_error env pid pdata err hv
  rw [show upgrade_execute env st =
      (Except.error (CmdErr.verify err),
        [Event.balanceCheck b, Event.verifyAuthority env.deployer]) from by
    simp [upgrade_execute, hde, hemp, hpf, hc, hb, hlt, hlast, hpid, hup]]
  constructor
  · intro e he
    simp only [List.mem_cons, List.not_mem_nil, or_false] at he
    rcases he with he | he <;> subst he <;> exact ⟨rfl, by simp⟩
  · intro _
    rfl

theorem set_last_upgraded_append (t : Int) (rest : List DeployedProgram)
    (last : DeployedProgram) :
    set_last_upgraded t (rest ++ [last]) = rest ++ [{ last with last_upgraded := some t }] := by
  induction rest with
  | nil => rfl
  | cons p ps ih =>
    cases ps with
    | nil => rfl
    | cons q qs => simpa [set_last_upgraded] using ih

theorem set_last_upgraded_length (t : Int) (l : List DeployedProgram) :
    (set_last_upgraded t l).length = l.length := by
  induction l with
  | nil => rfl
  | cons p ps ih =>
    cases ps with
    | nil => rfl
    | cons q qs => simpa [set_last_upgraded] using ih

/- ---------------------------------------------------------------------------
Claim theorems.
--------------------------------------------------------------------------- -/
/-- C2: the Authority Verifier (`verify_upgrade_authority` / `verify_current_authority`)
returns success if and only if the fetched Program-Data account decodes to the
`ProgramData` record shape with `authority = Some(expected)`; an absent authority,
a mismatched authority, and an undecodable / wrong-shape account each produce
distinct failures, never success. -/
theorem c2_authority_verifier_iff (account : FetchedAccount) (expected : Pubkey)
    (slot : Nat) (k : Pubkey) (hk : k ≠ expected) :
    (verify_upgrade_authority account expected = Except.ok () ↔
      ∃ s, account = some (some (UpgradeableLoaderState.programData s (some expected))))
    ∧ (verify_current_authority account expected = Except.ok () ↔
      ∃ s, account = some (some (UpgradeableLoaderState.programData s (some expected))))
    ∧ verify_upgrade_authority
        (some (some (UpgradeableLoaderState.programData slot none))) expected
        = Except.error VerifyErr.notUpgradeable
    ∧ verify_upgrade_authority
        (some (some (UpgradeableLoaderState.programData slot (some k)))) expected
        = Except.error (VerifyErr.authorityMismatch expected k)
    ∧ verify_upgrade_authority (some none) expected = Except.error VerifyErr.deserializeFailed
    ∧ verify_upgrade_authority none expected = Except.error VerifyErr.accountNotFound
    ∧ verify_current_authority
        (some (some (UpgradeableLoaderState.programData slot none))) expected
        = Except.error VerifyErr.alreadyImmutable
    ∧ verify_current_authority
        (some (some (UpgradeableLoaderState.programData slot (some k)))) expected
        = Except.error (VerifyErr.authorityMismatch expected k)
    ∧ verify_current_authority (some none) expected = Except.error VerifyErr.deserializeFailed
    ∧ (VerifyErr.notUpgradeable ≠ VerifyErr.authorityMismatch expected k
       ∧ VerifyErr.notUpgradeable ≠ VerifyErr.deserializeFailed
       ∧ VerifyErr.authorityMismatch expected k ≠ VerifyErr.deserializeFailed
       ∧ VerifyErr.alreadyImmutable ≠ VerifyErr.authorityMismatch expected k
       ∧ VerifyErr.alreadyImmutable ≠ VerifyErr.deserializeFailed) := by
  refine ⟨verify_upgrade_authority_ok_iff account expected,
    verify_current_authority_ok_iff account expected, ?_, ?_, ?_, ?_, ?_, ?_, ?_, ?_⟩
  · simp [verify_upgrade_authority]
  · simp [verify_upgrade_authority, hk]
  · simp [verify_upgrade_authority]
  · simp [verify_upgrade_authority]
  · simp [verify_current_authority]
  · simp [verify_current_authority, hk]
  · simp [verify_current_authority]
  · simp

/-- C1 counterexample: at a payload of 4,294,967,401 bytes the `offset as u32`
cast wraps — the claim's count ⌈L/900⌉ = 4,772,187 still holds, but the
4,772,186-th (0-based) write piece is submitted at offset 104 instead of
4,772,186 · 900 = 4,294,967,400, and the submitted offsets are not strictly
increasing (the preceding piece has offset 4,294,966,500 > 104) — refuting, for
this payload length, the claim's "the i-th piece is submitted with offset i·S"
and "submission order is strictly increasing offset order". -/
theorem c1_chunked_uploader_counterexample :
    (write_pieces (List.replicate 4294967401 0)).length = 4772187
    ∧ (write_pieces (List.replicate 4294967401 0))[4772186]?.map WritePiece.offset
        = some 104
    ∧ (write_pieces (List.replicate 4294967401 0))[4772185]?.map WritePiece.offset
        = some 4294966500
    ∧ 4772186 * chunk_size = 4294967400
    ∧ (104 : Nat) ≠ 4772186 * chunk_size
    ∧ ¬ (4294966500 : Nat) < 104 := by
  have hlen : (write_pieces (List.replicate 4294967401 0)).length = 4772187 := by
    rw [write_pieces_length, List.length_replicate]
    decide
  have h1 : 4772186 < (write_pieces (List.replicate 4294967401 0)).length := by omega
  have h2 : 4772185 < (write_pieces (List.replicate 4294967401 0)).length := by omega
  refine ⟨hlen, ?_, ?_, by decide, by decide, by decide⟩
  · rw [List.getElem?_eq_getElem h1]
    have hoff := write_pieces_offset (List.replicate 4294967401 0) 4772186 h1
    simp only [List.get_eq_getElem] at hoff
    rw [Option.map_some', hoff]
    rfl
  · rw [List.getElem?_eq_getElem h2]
    have hoff := write_pieces_offset (List.replicate 4294967401 0) 4772185 h2
    simp only [List.get_eq_getElem] at hoff
    rw [Option.map_some', hoff]
    rfl

/-- C1 as amended: for every payload of length L, `write_program_data_to_buffer`
(chunk size 900) produces exactly ⌈L/900⌉ write pieces whose concatenation in
submission order is the original payload, and the i-th piece (0-based) is
submitted with offset (i·900) mod 2³² — the source casts the byte offset with
`offset as u32`; whenever the offset fits in u32 (in particular for every payload
below ≈4.29 GB) the i-th piece's offset is exactly i·900 and the submission order
is strictly increasing offset order; a 50,000-byte payload yields exactly 56
write transactions with final offset 55·900, and a 0-byte payload yields 0 write
transactions. -/
theorem c1_chunked_uploader (program_data : List Nat) :
    (write_pieces program_data).length = (program_data.length + chunk_size - 1) / chunk_size
    ∧ (∀ i (h : i < (write_pieces program_data).length),
        ((write_pieces program_data).get ⟨i, h⟩).offset = i * chunk_size % U32_MOD)
    ∧ (∀ i (h : i < (write_pieces program_data).length), i * chunk_size < U32_MOD →
        ((write_pieces program_data).get ⟨i, h⟩).offset = i * chunk_size)
    ∧ (∀ i j (hi : i < (write_pieces program_data).length)
        (hj : j < (write_pieces program_data).length), i < j → j * chunk_size < U32_MOD →
        ((write_pieces program_data).get ⟨i, hi⟩).offset <
          ((write_pieces program_data).get ⟨j, hj⟩).offset)
    ∧ ((write_pieces program_data).map WritePiece.bytes).flatten = program_data
    ∧ write_program_data_to_buffer (fun _ => true) program_data =
        (Except.ok (), (write_pieces program_data).map fun p => Event.txWrite p.offset p.bytes)
    ∧ (write_pieces (List.replicate 50000 0)).length = 56
    ∧ (write_pieces (List.replicate 50000 0))[55]?.map WritePiece.offset = some (55 * 900)
    ∧ write_pieces [] = []
    ∧ write_program_data_to_buffer (fun _ => true) [] = (Except.ok (), []) := by
  have hlen50 : (write_pieces (List.replicate 50000 0)).length = 56 := by
    rw [write_pieces_length, List.length_replicate]
    decide
  have hnil : write_pieces ([] : List Nat) = [] := by
    simp [write_pieces, rustChunks_nil]
  refine ⟨write_pieces_length program_data, write_pieces_offset program_data,
    write_pieces_offset_of_lt program_data, ?_,
    write_pieces_flatten program_data, ?_, hlen50, ?_, hnil, ?_⟩
  · intro i j hi hj hij hfit
    have hifit : i * chunk_size < U32_MOD := by
      have : i * chunk_size < j * chunk_size := by
        have hc : 0 < chunk_size := by decide
        exact (Nat.mul_lt_mul_right hc).mpr hij
      omega
    rw [write_pieces_offset_of_lt program_data i hi hifit,
      write_pieces_offset_of_lt program_data j hj hfit]
    have hc : 0 < chunk_size := by decide
    exact (Nat.mul_lt_mul_right hc).mpr hij
  · rw [write_program_data_to_buffer,
      run_writes_all_ok (fun _ => true) _ _ 0 (fun _ => rfl)]
  · have h55 : 55 < (write_pieces (List.replicate 50000 0)).length := by omega
    rw [List.getElem?_eq_getElem h55]
    have hoff := write_pieces_offset (List.replicate 50000 0) 55 h55
    simp only [List.get_eq_getElem] at hoff
    rw [Option.map_some', hoff]
    rfl
  · rw [write_program_data_to_buffer, hnil]
    rfl

theorem c1_chunked_uploader_witness :
    ((write_pieces (List.replicate 901 7)).get
      ⟨1, by rw [write_pieces_length, List.length_replicate]; decide⟩).offset
      = 1 * chunk_size :=
  (c1_chunked_uploader (List.replicate 901 7)).2.2.1 1 _ (by decide)

/-- C5: when the remote authority of the targeted program differs from the local
deployer key, the upgrade fails during authority verification: no transaction
(buffer creation, write, or upgrade) appears in the trace, local state is not
saved, and whenever the verification step ran the result is the
authority-mismatch error. -/
theorem c5_upgrade_mismatch_no_side_effects (env : UpgradeEnv) (st : ProjectState)
    (slot : Nat) (found : Pubkey)
    (hacct : env.programdata_account =
      some (some (UpgradeableLoaderState.programData slot (some found))))
    (hne : found ≠ env.deployer) :
    (∀ e ∈ (upgrade_execute env st).2, e.isTx = false ∧ ∀ s, e ≠ Event.saveState s)
    ∧ (Event.verifyAuthority env.deployer ∈ (upgrade_execute env st).2 →
        (upgrade_execute env st).1 =
          Except.error (CmdErr.verify (VerifyErr.authorityMismatch env.deployer found))) := by
  have hv : verify_upgrade_authority env.programdata_account env.deployer =
      Except.error (VerifyErr.authorityMismatch env.deployer found) := by
    simp [verify_upgrade_authority, hacct, hne]
  exact upgrade_execute_verify_fails env st _ hv

theorem c5_upgrade_mismatch_no_side_effects_witness :
    (∀ e ∈ (upgrade_execute c5Env c5State).2, e.isTx = false ∧ ∀ s, e ≠ Event.saveState s)
    ∧ (Event.verifyAuthority c5Env.deployer ∈ (upgrade_execute c5Env c5State).2 →
        (upgrade_execute c5Env c5State).1 =
          Except.error (CmdErr.verify (VerifyErr.authorityMismatch c5Env.deployer 42))) :=
  c5_upgrade_mismatch_no_side_effects c5Env c5State 0 42 rfl (by decide)

theorem rotate_loop_events (env : RotateEnv) (records : List DeployedProgram) (i : Nat) :
    ∀ e ∈ (rotate_transfer_loop env records i).2,
      ∃ pd, e = Event.txSetAuthority pd env.old_deployer (some env.new_deployer) := by
  induction records generalizing i with
  | nil =>
    intro e he
    simp [rotate_transfer_loop] at he
  | cons p rest ih =>
    intro e he
    rcases hp : env.parse_program_id p.program_id with _ | pid
    · simp [rotate_transfer_loop, hp] at he
    cases hok : env.set_authority_ok i
    · simp only [rotate_transfer_loop, hp, hok, Bool.false_eq_true, if_false,
        List.mem_cons, List.not_mem_nil, or_false] at he
      exact ⟨_, he⟩
    · simp only [rotate_transfer_loop, hp, hok, if_true, List.mem_cons] at he
      rcases he with he | he
      · exact ⟨_, he⟩
      · exact ih (i + 1) e he

theorem rotate_loop_all_ok (env : RotateEnv) (records : List DeployedProgram) (i : Nat)
    (hok : ∀ j, env.set_authority_ok j = true)
    (hparse : ∀ p ∈ records, ∃ pid, env.parse_program_id p.program_id = some pid) :
    rotate_transfer_loop env records i = (Except.ok (), records.map (rotateLoopEvent env)) := by
  induction records generalizing i with
  | nil => rfl
  | cons p rest ih =>
    rcases hparse p (by simp) with ⟨pid, hp⟩
    have ih2 := ih (i + 1) (fun q hq => hparse q (by simp [hq]))
    simp [rotate_transfer_loop, hp, hok, rotateLoopEvent, ih2]

theorem rotate_loop_first_failure (env : RotateEnv) (records : List DeployedProgram)
    (base k : Nat)
    (hparse : ∀ p ∈ records, ∃ pid, env.parse_program_id p.program_id = some pid)
    (hok : ∀ j, j < k → env.set_authority_ok (base + j) = true)
    (hfail : env.set_authority_ok (base + k) = false)
    (hk : k < records.length) :
    (rotate_transfer_loop env records base).1 =
        Except.error (CmdErr.txFailed "transfer authority")
    ∧ (rotate_transfer_loop env records base).2 =
        (records.take (k + 1)).map (rotateLoopEvent env) := by
  induction records generalizing base k with
  | nil => simp at hk
  | cons p rest ih =>
    rcases hparse p (by simp) with ⟨pid, hp⟩
    cases k with
    | zero =>
      have hf : env.set_authority_ok base = false := by simpa using hfail
      simp [rotate_transfer_loop, hp, hf, rotateLoopEvent]
    | succ k2 =>
      have h0 : env.set_authority_ok base = true := by
        simpa using hok 0 (Nat.succ_pos k2)
      have ih2 := ih (base + 1) k2
        (fun q hq => hparse q (by simp [hq]))
        (fun j hj => by
          have hx := hok (j + 1) (by omega)
          have he : base + (j + 1) = base + 1 + j := by omega
          rw [he] at hx
          exact hx)
        (by
          have he : base + (k2 + 1) = base + 1 + k2 := by omega
          rw [he] at hfail
          exact hfail)
        (by simpa using Nat.lt_of_succ_lt_succ hk)
      simp [rotate_transfer_loop, hp, h0, rotateLoopEvent, ih2.1, ih2.2, List.take_succ_cons]

theorem rotate_execute_no_verify (env : RotateEnv) (st : ProjectState) (k : Pubkey) :
    Event.verifyAuthority k ∉ (rotate_execute env st).2 := by
  intro hmem
  have hloop := rotate_loop_events env st.deployed_programs 0
  cases hde : env.deployer_exists
  · simp [rotate_execute, hde] at hmem
  cases hc : env.confirmed
  · simp [rotate_execute, hde, hc] at hmem
  rcases hl : rotate_transfer_loop env st.deployed_programs 0 with ⟨res, evs⟩
  rw [hl] at hloop
  simp only at hloop
  cases res with
  | error e =>
    rw [show (rotate_execute env st).2 = evs from by
      simp [rotate_execute, hde, hc, hl]] at hmem
    rcases hloop _ hmem with ⟨pd, hpd⟩
    simp at hpd
  | ok u =>
    rw [show (rotate_execute env st).2 = evs ++ [Event.saveDeployer env.new_deployer] from by
      simp [rotate_execute, hde, hc, hl]] at hmem
    rcases List.mem_append.mp hmem with hmem | hmem
    · rcases hloop _ hmem with ⟨pd, hpd⟩
      simp at hpd
    · simp at hmem

theorem event_ne_balanceCheck_of_isTx (e : Event) (h : e.isTx = true) (a : Nat) :
    e ≠ Event.balanceCheck a := by
  cases e <;> simp_all [Event.isTx]

/-- C8: deploy and upgrade each check the controller's remote balance exactly once
and before any transaction: every balance-check event in the trace is the first
trace event and does not recur in the tail, and if any transaction was submitted
the first trace event is the balance check; the deploy minimum (5,000,000,000
lamports) is strictly greater than the upgrade minimum (1,000,000,000 lamports);
and a balance below the minimum produces the insufficient-balance error with no
transaction submitted. -/
theorem c8_balance_checked_once_first (envD : DeployEnv) (envU : UpgradeEnv)
    (stD stU : ProjectState) (b c : Nat) :
    MIN_UPGRADE_BALANCE < MIN_DEPLOY_BALANCE
    ∧ MIN_DEPLOY_BALANCE = 5000000000
    ∧ MIN_UPGRADE_BALANCE = 1000000000
    ∧ (∀ a, Event.balanceCheck a ∈ (deploy_execute envD stD).2 →
        (deploy_execute envD stD).2.head? = some (Event.balanceCheck a)
        ∧ Event.balanceCheck a ∉ (deploy_execute envD stD).2.tail)
    ∧ ((∃ e ∈ (deploy_execute envD stD).2, e.isTx = true) →
        ∃ a, (deploy_execute envD stD).2.head? = some (Event.balanceCheck a))
    ∧ (envD.balance = some b → b < MIN_DEPLOY_BALANCE →
        ((deploy_execute envD stD).1 = Except.error CmdErr.insufficientBalance
          ∨ (deploy_execute envD stD).2 = [])
        ∧ ∀ e ∈ (deploy_execute envD stD).2, e.isTx = false)
    ∧ (∀ a, Event.balanceCheck a ∈ (upgrade_execute envU stU).2 →
        (upgrade_execute envU stU).2.head? = some (Event.balanceCheck a)
        ∧ Event.balanceCheck a ∉ (upgrade_execute envU stU).2.tail)
    ∧ ((∃ e ∈ (upgrade_execute envU stU).2, e.isTx = true) →
        ∃ a, (upgrade_execute envU stU).2.head? = some (Event.balanceCheck a))
    ∧ (envU.balance = some c → c < MIN_UPGRADE_BALANCE →
        ((upgrade_execute envU stU).1 = Except.error CmdErr.insufficientBalance
          ∨ (upgrade_execute envU stU).2 = [])
        ∧ ∀ e ∈ (upgrade_execute envU stU).2, e.isTx = false) := by
  have hshapeD := deploy_execute_trace_shape envD stD
  have hshapeU := upgrade_execute_trace_shape envU stU
  refine ⟨by decide, rfl, rfl, ?_, ?_, ?_, ?_, ?_, ?_⟩
  · intro a ha
    rcases hshapeD with h | ⟨a2, evs, hb2, htr, hevs⟩
    · rw [h] at ha
      simp at ha
    · rw [htr] at ha ⊢
      have hnot : Event.balanceCheck a ∉ evs := by
        intro hmem
        rcases hevs _ hmem with h2 | ⟨s2, h2⟩
        · exact event_ne_balanceCheck_of_isTx _ h2 a rfl
        · simp at h2
      simp only [List.mem_cons] at ha
      rcases ha with ha | ha
      · rw [← ha]
        exact ⟨rfl, hnot⟩
      · exact absurd ha hnot
  · rintro ⟨e, he, hetx⟩
    rcases hshapeD with h | ⟨a, evs, hb2, htr, hevs⟩
    · rw [h] at he
      simp at he
    · rw [htr]
      exact ⟨a, rfl⟩
  · intro hb2 hlt
    rcases deploy_execute_low_balance envD stD b hb2 hlt with h | h
    · refine ⟨Or.inl (by rw [h]), ?_⟩
      rw [show (deploy_execute envD stD).2 = [Event.balanceCheck b] from by rw [h]]
      intro e he
      simp at he
      subst he
      rfl
    · refine ⟨Or.inr h, ?_⟩
      rw [h]
      intro e he
      simp at he
  · intro a ha
    rcases hshapeU with h | ⟨a2, evs, hb2, htr, hevs⟩
    · rw [h] at ha
      simp at ha
    · rw [htr] at ha ⊢
      have hnot : Event.balanceCheck a ∉ evs := by
        intro hmem
        rcases hevs _ hmem with h2 | h2 | ⟨s2, h2⟩
        · simp at h2
        · exact event_ne_balanceCheck_of_isTx _ h2 a rfl
        · simp at h2
      simp only [List.mem_cons] at ha
      rcases ha with ha | ha
      · rw [← ha]
        exact ⟨rfl, hnot⟩
      · exact absurd ha hnot
  · rintro ⟨e, he, hetx⟩
    rcases hshapeU with h | ⟨a, evs, hb2, htr, hevs⟩
    · rw [h] at he
      simp at he
    · rw [htr]
      exact ⟨a, rfl⟩
  · intro hb2 hlt
    rcases upgrade_execute_low_balance envU stU c hb2 hlt with h | h
    · refine ⟨Or.inl (by rw [h]), ?_⟩
      rw [show (upgrade_execute envU stU).2 = [Event.balanceCheck c] from by rw [h]]
      intro e he
      simp at he
      subst he
      rfl
    · refine ⟨Or.inr h, ?_⟩
      rw [h]
      intro e he
      simp at he

theorem c8_balance_checked_once_first_witness :
    ((deploy_execute c8Env c5State).1 = Except.error CmdErr.insufficientBalance
      ∨ (deploy_execute c8Env c5State).2 = [])
    ∧ ∀ e ∈ (deploy_execute c8Env c5State).2, e.isTx = false :=
  (c8_balance_checked_once_first c8Env c5Env c5State c5State 4 0).2.2.2.2.2.1
    rfl (by decide)

/-- C9: local Project State is written only after the remote operation succeeds:
a successful deploy appends exactly one new record (program id string, deployment
timestamp, `last_upgraded = None`) leaving existing records unchanged, a
successful upgrade mutates the existing records in place (same count, no record
deleted), and when the remote sequence fails no state is saved. -/
theorem c9_state_saved_only_on_success (envD : DeployEnv) (envU : UpgradeEnv)
    (stD stU st1 st2 : ProjectState) :
    (Event.saveState st1 ∈ (deploy_execute envD stD).2 →
      (deploy_execute envD stD).1 = Except.ok ()
      ∧ envD.deploy_tx_ok = true
      ∧ Event.txDeploy envD.program_id ∈ (deploy_execute envD stD).2
      ∧ st1.network = stD.network
      ∧ st1.deployed_programs = stD.deployed_programs ++
          [{ program_id := toString envD.program_id, deployed_at := envD.now,
             last_upgraded := none }])
    ∧ ((deploy_execute envD stD).1 ≠ Except.ok () →
        ∀ s, Event.saveState s ∉ (deploy_execute envD stD).2)
    ∧ (Event.saveState st2 ∈ (upgrade_execute envU stU).2 →
      (upgrade_execute envU stU).1 = Except.ok ()
      ∧ envU.upgrade_tx_ok = true
      ∧ st2.network = stU.network
      ∧ st2.deployed_programs.length = stU.deployed_programs.length
      ∧ st2.deployed_programs = set_last_upgraded envU.now stU.deployed_programs)
    ∧ ((upgrade_execute envU stU).1 ≠ Except.ok () →
        ∀ s, Event.saveState s ∉ (upgrade_execute envU stU).2) := by
  refine ⟨?_, ?_, ?_, ?_⟩
  · intro h
    rcases deploy_execute_saveState envD stD st1 h with ⟨hok, htx, hmem, b, hb, hge, hst⟩
    subst hst
    exact ⟨hok, htx, hmem, rfl, rfl⟩
  · intro hne s hmem
    rcases deploy_execute_saveState envD stD s hmem with ⟨hok, _⟩
    exact hne hok
  · intro h
    rcases upgrade_execute_saveState envU stU st2 h with
      ⟨hok, htx, ⟨b, hb, hge, hst⟩, lastp, pid, hlast, hpid, hmem, hver⟩
    subst hst
    exact ⟨hok, htx, rfl, set_last_upgraded_length envU.now stU.deployed_programs, rfl⟩
  · intro hne s hmem
    rcases upgrade_execute_saveState envU stU s hmem with ⟨hok, _⟩
    exact hne hok

theorem c9_state_saved_only_on_success_witness :
    (deploy_execute c9Env c5State).1 = Except.ok ()
    ∧ c9Env.deploy_tx_ok = true
    ∧ Event.txDeploy c9Env.program_id ∈ (deploy_execute c9Env c5State).2
    ∧ (deploy_new_state c9Env c5State 6000000000).network = c5State.network
    ∧ (deploy_new_state c9Env c5State 6000000000).deployed_programs =
        c5State.deployed_programs ++
          [{ program_id := toString c9Env.program_id, deployed_at := c9Env.now,
             last_upgraded := none }] :=
  (c9_state_saved_only_on_success c9Env c5Env c5State c5State
      (deploy_new_state c9Env c5State 6000000000) c5State).1
    (by simp [deploy_execute, deploy_program_bpf_upgradeable, write_program_data_to_buffer,
      write_pieces, rustChunks, run_writes, c9Env, c5State, MIN_DEPLOY_BALANCE,
      deploy_new_state])

/-- C10: upgrade always targets the most recently appended record (the last
element of `deployed_programs`); on success it changes only that record's
`last_upgraded` field and the top-level `last_balance`, leaving every record's
`program_id` and `deployed_at`, every other record, and the network label
unchanged. -/
theorem c10_upgrade_targets_last (env : UpgradeEnv) (st st' : ProjectState)
    (rest : List DeployedProgram) (last_record : DeployedProgram)
    (hsplit : st.deployed_programs = rest ++ [last_record])
    (hsave : Event.saveState st' ∈ (upgrade_execute env st).2) :
    st'.network = st.network
    ∧ st'.deployed_programs = rest ++ [{ last_record with last_upgraded := some env.now }]
    ∧ (∃ b, env.balance = some b ∧ st'.last_balance = b)
    ∧ ∃ pid, env.parse_program_id last_record.program_id = some pid
        ∧ Event.txUpgrade pid ∈ (upgrade_execute env st).2 := by
  rcases upgrade_execute_saveState env st st' hsave with
    ⟨hok, htx, ⟨b, hb, hge, hst⟩, lastp, pid, hlast, hpid, hmem, hver⟩
  have hlast2 : lastp = last_record := by
    rw [hsplit, List.getLast?_concat] at hlast
    exact (Option.some.injEq _ _ ▸ hlast).symm
  subst hlast2
  subst hst
  refine ⟨rfl, ?_, ⟨b, hb, rfl⟩, pid, hpid, hmem⟩
  simp only [upgrade_new_state, hsplit, set_last_upgraded_append]

theorem c10_upgrade_targets_last_witness :
    (upgrade_new_state c10Env c5State 2000000000).network = c5State.network
    ∧ (upgrade_new_state c10Env c5State 2000000000).deployed_programs =
        [] ++ [{ program_id := "A", deployed_at := 3, last_upgraded := some c10Env.now }]
    ∧ (∃ b, c10Env.balance = some b
        ∧ (upgrade_new_state c10Env c5State 2000000000).last_balance = b)
    ∧ ∃ pid, c10Env.parse_program_id "A" = some pid
        ∧ Event.txUpgrade pid ∈ (upgrade_execute c10Env c5State).2 := by
  have h := c10_upgrade_targets_last c10Env c5State
    (upgrade_new_state c10Env c5State 2000000000) []
    { program_id := "A", deployed_at := 3, last_upgraded := none }
    (by simp [c5State])
    (by simp [upgrade_execute, upgrade_program_bpf_upgradeable, verify_upgrade_authority,
      write_program_data_to_buffer, write_pieces, rustChunks, run_writes, c10Env, c5State,
      MIN_UPGRADE_BALANCE, upgrade_new_state, set_last_upgraded])
  exact h

/-- C3 counterexample: at a concrete rotate run with one tracked record, the very
first trace event is the set-authority transaction and no authority-verification
event occurs anywhere — so the Authority Verifier is NOT run before the
set-authority transaction, contradicting the claim. -/
theorem c3_rotate_counterexample :
    (rotate_execute c3Env c5State).2
      = [Event.txSetAuthority 10 1 (some 2), Event.saveDeployer 2]
    ∧ ∀ k, Event.verifyAuthority k ∉ (rotate_execute c3Env c5State).2 := by
  have h : (rotate_execute c3Env c5State).2
      = [Event.txSetAuthority 10 1 (some 2), Event.saveDeployer 2] := by
    simp [rotate_execute, rotate_transfer_loop, c3Env, c5State, find_program_address]
  refine ⟨h, ?_⟩
  intro k
  rw [h]
  simp

/-- C3 as amended: during rotate, for every record in the local Lifecycle State
Tracker a set-authority(new) transaction signed by the old key is emitted, in
record order, WITHOUT running the Authority Verifier first — rotate's trace never
contains an authority-verification event, and when every transfer succeeds the
trace is exactly one set-authority transaction per record followed by saving the
new deployer. -/
theorem c3_rotate_amended (env : RotateEnv) (st : ProjectState)
    (hok : ∀ j, env.set_authority_ok j = true)
    (hparse : ∀ p ∈ st.deployed_programs, ∃ pid, env.parse_program_id p.program_id = some pid)
    (hde : env.deployer_exists = true) (hc : env.confirmed = true) :
    (∀ k, Event.verifyAuthority k ∉ (rotate_execute env st).2)
    ∧ rotate_execute env st =
        (Except.ok (), st.deployed_programs.map (rotateLoopEvent env)
          ++ [Event.saveDeployer env.new_deployer]) := by
  have hloop := rotate_loop_all_ok env st.deployed_programs 0 hok hparse
  have hexec : rotate_execute env st =
      (Except.ok (), st.deployed_programs.map (rotateLoopEvent env)
        ++ [Event.saveDeployer env.new_deployer]) := by
    simp [rotate_execute, hde, hc, hloop]
  exact ⟨fun k => rotate_execute_no_verify env st k, hexec⟩

theorem c3_rotate_amended_witness :
    (∀ k, Event.verifyAuthority k ∉ (rotate_execute c3Env c5State).2)
    ∧ rotate_execute c3Env c5State =
        (Except.ok (), c5State.deployed_programs.map (rotateLoopEvent c3Env)
          ++ [Event.saveDeployer c3Env.new_deployer]) :=
  c3_rotate_amended c3Env c5State (fun _ => rfl)
    (fun _ _ => ⟨10, rfl⟩) rfl rfl

/-- C4: rotate saves the new deployer keypair only after the authority transfer
for every record has succeeded (or when there are no records); if the transfer
for record k fails, rotate returns an error without saving — so local state still
holds the old key — with set-authority transactions submitted exactly for records
0..k in order: earlier ones succeeded, the k-th failed, later records got none. -/
theorem c4_rotate_save_after_transfers (env : RotateEnv) (st : ProjectState) (k : Nat) :
    (∀ key, Event.saveDeployer key ∈ (rotate_execute env st).2 →
      key = env.new_deployer ∧ (rotate_execute env st).1 = Except.ok ())
    ∧ (env.deployer_exists = true → env.confirmed = true → st.deployed_programs = [] →
        rotate_execute env st = (Except.ok (), [Event.saveDeployer env.new_deployer]))
    ∧ (env.deployer_exists = true → env.confirmed = true →
       (∀ p ∈ st.deployed_programs, ∃ pid, env.parse_program_id p.program_id = some pid) →
       (∀ j, j < k → env.set_authority_ok j = true) →
       env.set_authority_ok k = false →
       k < st.deployed_programs.length →
        (rotate_execute env st).1 = Except.error (CmdErr.txFailed "transfer authority")
        ∧ (∀ key, Event.saveDeployer key ∉ (rotate_execute env st).2)
        ∧ (rotate_execute env st).2 =
            (st.deployed_programs.take (k + 1)).map (rotateLoopEvent env)) := by
  refine ⟨?_, ?_, ?_⟩
  · intro key hmem
    have hloop := rotate_loop_events env st.deployed_programs 0
    cases hde : env.deployer_exists
    · simp [rotate_execute, hde] at hmem
    cases hc : env.confirmed
    · simp [rotate_execute, hde, hc] at hmem
    rcases hl : rotate_transfer_loop env st.deployed_programs 0 with ⟨res, evs⟩
    rw [hl] at hloop
    simp only at hloop
    cases res with
    | error e =>
      rw [show (rotate_execute env st).2 = evs from by
        simp [rotate_execute, hde, hc, hl]] at hmem
      rcases hloop _ hmem with ⟨pd, hpd⟩
      simp at hpd
    | ok u =>
      rw [show rotate_execute env st =
          (Except.ok (), evs ++ [Event.saveDeployer env.new_deployer]) from by
        simp [rotate_execute, hde, hc, hl]] at hmem ⊢
      simp only [List.mem_append] at hmem
      rcases hmem with hmem | hmem
      · rcases hloop _ hmem with ⟨pd, hpd⟩
        simp at hpd
      · simp at hmem
        exact ⟨hmem, rfl⟩
  · intro hde hc hnil
    simp [rotate_execute, hde, hc, hnil, rotate_transfer_loop]
  · intro hde hc hparse hok hfail hk
    have hloop := rotate_loop_first_failure env st.deployed_programs 0 k hparse
      (fun j hj => by simpa using hok j hj) (by simpa using hfail) hk
    rcases hl : rotate_transfer_loop env st.deployed_programs 0 with ⟨res, evs⟩
    rw [hl] at hloop
    simp only at hloop
    rcases hloop with ⟨hres, hevs⟩
    subst hres
    have hexec : rotate_execute env st =
        (Except.error (CmdErr.txFailed "transfer authority"), evs) := by
      simp [rotate_execute, hde, hc, hl]
    rw [hexec]
    subst hevs
    refine ⟨rfl, ?_, rfl⟩
    intro key hmem
    simp only [List.mem_map] at hmem
    rcases hmem with ⟨p, hp, hpe⟩
    simp [rotateLoopEvent] at hpe

theorem c4_rotate_save_after_transfers_witness :
    (rotate_execute c4Env c4State).1 = Except.error (CmdErr.txFailed "transfer authority")
    ∧ (∀ key, Event.saveDeployer key ∉ (rotate_execute c4Env c4State).2)
    ∧ (rotate_execute c4Env c4State).2 =
        (c4State.deployed_programs.take 2).map (rotateLoopEvent c4Env) :=
  (c4_rotate_save_after_transfers c4Env c4State 1).2.2 rfl rfl
    (fun _ _ => ⟨10, rfl⟩)
    (fun j hj => by
      have hj0 : j = 0 := by omega
      subst hj0
      rfl)
    rfl
    (by decide)

/-- C6: after the set-authority(None) transaction of finalize is submitted and
confirmed, finalize re-reads the Program-Data account and succeeds only if the
decoded authority is now absent; if the re-read still shows a present authority,
finalize returns an error rather than reporting success. -/
theorem c6_finalize_postcondition (env : FinalizeEnv) (pid : Pubkey) :
    ((finalize_program env pid).1 = Except.ok () →
      env.set_authority_ok = true
      ∧ (∃ slot, env.account_after = some (some (UpgradeableLoaderState.programData slot none)))
      ∧ (finalize_program env pid).2 =
          [Event.verifyAuthority env.deployer,
           Event.txSetAuthority (find_program_address pid) env.deployer none])
    ∧ (∀ slot a, env.account_after =
          some (some (UpgradeableLoaderState.programData slot (some a))) →
        (finalize_program env pid).1 ≠ Except.ok ()
        ∧ (env.set_authority_ok = true →
            verify_current_authority env.account_before env.deployer = Except.ok () →
            (finalize_program env pid).1 =
              Except.error (CmdErr.verify (VerifyErr.finalizationUnconfirmed (some a))))) := by
  rcases hv : verify_current_authority env.account_before env.deployer with e | u
  · have heq : finalize_program env pid =
        (Except.error (CmdErr.verify e), [Event.verifyAuthority env.deployer]) := by
      simp [finalize_program, hv]
    rw [heq]
    refine ⟨fun hok => by simp at hok, fun slot a hacct => ⟨by simp, fun _ hv2 => ?_⟩⟩
    simp at hv2
  · cases hso : env.set_authority_ok
    · have heq : finalize_program env pid =
          (Except.error (CmdErr.txFailed "finalize"),
           [Event.verifyAuthority env.deployer,
            Event.txSetAuthority (find_program_address pid) env.deployer none]) := by
        simp [finalize_program, hv, hso]
      rw [heq]
      exact ⟨fun hok => by simp at hok,
        fun slot a hacct => ⟨by simp, fun hso2 _ => by simp at hso2⟩⟩
    · rcases hva : verify_immutable env.account_after with e2 | u2
      · have heq : finalize_program env pid =
            (Except.error (CmdErr.verify e2),
             [Event.verifyAuthority env.deployer,
              Event.txSetAuthority (find_program_address pid) env.deployer none]) := by
          simp [finalize_program, hv, hso, hva]
        rw [heq]
        refine ⟨fun hok => by simp at hok, fun slot a hacct => ⟨by simp, fun _ _ => ?_⟩⟩
        have he2 : e2 = VerifyErr.finalizationUnconfirmed (some a) := by
          rw [hacct] at hva
          simpa [verify_immutable] using hva.symm
        rw [he2]
      · have heq : finalize_program env pid =
            (Except.ok (),
             [Event.verifyAuthority env.deployer,
              Event.txSetAuthority (find_program_address pid) env.deployer none]) := by
          simp [finalize_program, hv, hso, hva]
        rw [heq]
        refine ⟨fun _ => ⟨rfl, ?_, rfl⟩, fun slot a hacct => ?_⟩
        · rcases hacc : env.account_after with _ | acc
          · rw [hacc] at hva
            simp [verify_immutable] at hva
          rcases hacc2 : acc with _ | st2
          · rw [hacc, hacc2] at hva
            simp [verify_immutable] at hva
          cases st2 with
          | programData slot2 auth =>
            rcases hauth : auth with _ | a2
            · exact ⟨slot2, by simp_all⟩
            · rw [hacc, hacc2, hauth] at hva
              simp [verify_immutable] at hva
          | uninitialized =>
            rw [hacc, hacc2] at hva
            simp [verify_immutable] at hva
          | buffer x =>
            rw [hacc, hacc2] at hva
            simp [verify_immutable] at hva
          | program x =>
            rw [hacc, hacc2] at hva
            simp [verify_immutable] at hva
        · rw [hacct] at hva
          simp [verify_immutable] at hva

theorem c6_finalize_postcondition_witness :
    c6Env.set_authority_ok = true
    ∧ (∃ slot, c6Env.account_after =
        some (some (UpgradeableLoaderState.programData slot none)))
    ∧ (finalize_program c6Env 7).2 =
        [Event.verifyAuthority c6Env.deployer,
         Event.txSetAuthority (find_program_address 7) c6Env.deployer none] :=
  (c6_finalize_postcondition c6Env 7).1 rfl

/-- C7: finalize on a program whose Program-Data account already has an absent
authority is rejected pre-emptively by the authority verification step with the
already-immutable error, before any set-authority transaction is emitted; it is
never silently treated as success. -/
theorem c7_finalize_already_immutable (env : FinalizeEnv) (pid : Pubkey) (slot : Nat)
    (hacct : env.account_before = some (some (UpgradeableLoaderState.programData slot none))) :
    finalize_program env pid =
      (Except.error (CmdErr.verify VerifyErr.alreadyImmutable),
       [Event.verifyAuthority env.deployer])
    ∧ ∀ e ∈ (finalize_program env pid).2, e.isTx = false := by
  have hv : verify_current_authority env.account_before env.deployer =
      Except.error VerifyErr.alreadyImmutable := by
    simp [verify_current_authority, hacct]
  have heq : finalize_program env pid =
      (Except.error (CmdErr.verify VerifyErr.alreadyImmutable),
       [Event.verifyAuthority env.deployer]) := by
    simp [finalize_program, hv]
  refine ⟨heq, ?_⟩
  rw [heq]
  intro e he
  simp at he
  subst he
  rfl

theorem c7_finalize_already_immutable_witness :
    finalize_program c7Env 7 =
      (Except.error (CmdErr.verify VerifyErr.alreadyImmutable),
       [Event.verifyAuthority c7Env.deployer])
    ∧ ∀ e ∈ (finalize_program c7Env 7).2, e.isTx = false :=
  c7_finalize_already_immutable c7Env 7 0 rfl

theorem c2_authority_verifier_iff_witness :
    ((5 : Pubkey) ≠ 7)
    ∧ (verify_upgrade_authority
        (some (some (UpgradeableLoaderState.programData 3 (some 7)))) 7 = Except.ok () ↔
      ∃ s, (some (some (UpgradeableLoaderState.programData 3 (some 7))) : FetchedAccount)
        = some (some (UpgradeableLoaderState.programData s (some 7)))) := by
  refine ⟨by decide, (c2_authority_verifier_iff
    (some (some (UpgradeableLoaderState.programData 3 (some 7)))) 7 3 5 (by decide)).1⟩

end DeployShield
